import Mathlib

/-!
Shallow embedding of the todo-list state-management and export subsystem of
`src/tolist/components/TodoList.tsx`.

The component's state is modelled explicitly: the ordered item collection
(`List Todo`), the selection set (`Finset Int`, modelling `Set<number>`), and
the persistence bridge as a small transition system.  The `Date.now()` clock
and the export timestamps are passed as explicit parameters.  JavaScript's
`JSON.parse` / `JSON.stringify` builtins are modelled by an executable JSON
value type with a fuel-based recursive-descent reader and serializers; the
number grammar is restricted to the integer fragment (the only one this
program produces), and loose records loaded from storage are kept as raw JSON
values, exactly as the untyped `parsed.map` in the source does.
-/

namespace Claw

/-- `type Priority = "high" | "medium" | "low"` -/
inductive Priority where
  | high
  | medium
  | low
deriving DecidableEq, Repr

/-- `interface Todo` — items created inside the app. -/
structure Todo where
  id : Int
  text : String
  completed : Bool
  priority : Priority
deriving DecidableEq, Repr

/-- `type ExportFormat = "txt" | "json" | "csv"` -/
inductive ExportFormat where
  | txt
  | json
  | csv
deriving DecidableEq, Repr

/-- `const priorityLabels` -/
def priorityLabels : Priority → String
  | .high => "高"
  | .medium => "中"
  | .low => "低"

/-- The component state relevant to the mutation claims: the item collection
plus the selection set (`todos` and `selectedIds` in the source). -/
structure ListState where
  todos : List Todo
  selectedIds : Finset Int
deriving DecidableEq

/-- Whitespace removed by JavaScript's `String.prototype.trim` (the ASCII
part: space, tab, line feed, carriage return, vertical tab, form feed). -/
def isTrimWs (c : Char) : Bool :=
  c = ' ' || c = '\t' || c = '\n' || c = '\r' || c = Char.ofNat 11 || c = Char.ofNat 12

/-- `inputValue.trim()`: strip leading and trailing whitespace. -/
def jsTrim (s : String) : String :=
  ⟨(((s.toList.dropWhile isTrimWs).reverse.dropWhile isTrimWs).reverse)⟩

/-- `text.toLowerCase()` on the ASCII letters. -/
def jsToLower (s : String) : String :=
  ⟨s.toList.map Char.toLower⟩

/-- `addTodo`: trims the input; when non-empty and no existing item matches
case-insensitively, appends a new item whose id is the current clock value
(`Date.now()`), `completed = false`, and the selected priority.  The clock is
the explicit `now` parameter. -/
def addTodo (now : Int) (selectedPriority : Priority) (inputValue : String)
    (todos : List Todo) : List Todo :=
  let trimmed := jsTrim inputValue
  if trimmed ≠ "" then
    let dup := todos.any (fun todo => jsToLower todo.text == jsToLower trimmed)
    if dup then todos
    else todos ++ [{ id := now, text := trimmed, completed := false,
                     priority := selectedPriority }]
  else todos

/-- `toggleTodo` -/
def toggleTodo (id : Int) (todos : List Todo) : List Todo :=
  todos.map (fun todo =>
    if todo.id = id then { todo with completed := !todo.completed } else todo)

/-- `deleteTodo`: filters the item out and deletes its id from the selection. -/
def deleteTodo (id : Int) (s : ListState) : ListState :=
  { todos := s.todos.filter (fun todo => todo.id != id),
    selectedIds := s.selectedIds.erase id }

/-- `toggleSelect`: removes the id from the selection when present, otherwise
adds it (with no check that the id names an existing item). -/
def toggleSelect (selectedIds : Finset Int) (id : Int) : Finset Int :=
  if id ∈ selectedIds then selectedIds.erase id else insert id selectedIds

/-- `toggleSelectAll`: compares the selection's size with the item count; on
equality clears the selection, otherwise selects every item id. -/
def toggleSelectAll (todos : List Todo) (selectedIds : Finset Int) : Finset Int :=
  if selectedIds.card = todos.length then ∅
  else (todos.map Todo.id).toFinset

/-- `batchDelete`: drops every selected item and clears the selection. -/
def batchDelete (s : ListState) : ListState :=
  { todos := s.todos.filter (fun todo => !(decide (todo.id ∈ s.selectedIds))),
    selectedIds := ∅ }

/-- The set of ids present in the collection. -/
def idsOf (todos : List Todo) : Finset Int :=
  (todos.map Todo.id).toFinset

/-- JSON values, as produced by `JSON.parse`.  Numbers are restricted to the
integer fragment (the only numbers this program ever stores: ids from
`Date.now()` and counts).  Object fields keep their insertion order, exactly
as JavaScript objects do. -/
inductive Json where
  | null
  | bool (b : Bool)
  | num (n : Int)
  | str (s : String)
  | arr (elems : List Json)
  | obj (fields : List (String × Json))

/-- JSON string escaping, as `JSON.stringify` performs it. -/
def escChar (c : Char) : String :=
  if c = '"' then "\\\""
  else if c = '\\' then "\\\\"
  else if c = '\n' then "\\n"
  else if c = '\r' then "\\r"
  else if c = '\t' then "\\t"
  else if c = Char.ofNat 8 then "\\b"
  else if c = Char.ofNat 12 then "\\f"
  else if c.toNat < 32 then
    let hexDigit : Nat → String := fun d =>
      String.singleton (if d < 10 then Char.ofNat (48 + d) else Char.ofNat (87 + d))
    "\\u00" ++ hexDigit (c.toNat / 16) ++ hexDigit (c.toNat % 16)
  else String.singleton c

/-- A JSON string literal: quotes around the escaped characters. -/
def quoteJsonStr (s : String) : String :=
  "\"" ++ String.join (s.toList.map escChar) ++ "\""

mutual

/-- Compact serialization (`JSON.stringify(v)`). -/
def Json.stringify : Json → String
  | .null => "null"
  | .bool b => cond b "true" "false"
  | .num n => toString n
  | .str s => quoteJsonStr s
  | .arr es => "[" ++ stringifyElems es ++ "]"
  | .obj fs => "\x7b" ++ stringifyFields fs ++ "\x7d"

/-- Comma-joined compact serialization of array elements. -/
def stringifyElems : List Json → String
  | [] => ""
  | [e] => Json.stringify e
  | e :: es => Json.stringify e ++ "," ++ stringifyElems es

/-- Comma-joined compact serialization of object fields. -/
def stringifyFields : List (String × Json) → String
  | [] => ""
  | [(k, v)] => quoteJsonStr k ++ ":" ++ Json.stringify v
  | (k, v) :: fs => quoteJsonStr k ++ ":" ++ Json.stringify v ++ "," ++ stringifyFields fs

end

/-- Two-space indentation at the given depth. -/
def indentAt (depth : Nat) : String :=
  String.join (List.replicate depth "  ")

mutual

/-- Pretty serialization at a given depth (`JSON.stringify(v, null, 2)`). -/
def prettyAt : Nat → Json → String
  | _, .null => "null"
  | _, .bool b => cond b "true" "false"
  | _, .num n => toString n
  | _, .str s => quoteJsonStr s
  | depth, .arr es =>
    match es with
    | [] => "[]"
    | _ => "[\n" ++ prettyElems (depth + 1) es ++ "\n" ++ indentAt depth ++ "]"
  | depth, .obj fs =>
    match fs with
    | [] => "\x7b\x7d"
    | _ => "\x7b\n" ++ prettyFields (depth + 1) fs ++ "\n" ++ indentAt depth ++ "\x7d"

/-- Pretty-printed array elements, one per line, comma-separated. -/
def prettyElems : Nat → List Json → String
  | _, [] => ""
  | depth, [e] => indentAt depth ++ prettyAt depth e
  | depth, e :: es => indentAt depth ++ prettyAt depth e ++ ",\n" ++ prettyElems depth es

/-- Pretty-printed object fields, one per line, comma-separated. -/
def prettyFields : Nat → List (String × Json) → String
  | _, [] => ""
  | depth, [(k, v)] => indentAt depth ++ quoteJsonStr k ++ ": " ++ prettyAt depth v
  | depth, (k, v) :: fs =>
    indentAt depth ++ quoteJsonStr k ++ ": " ++ prettyAt depth v ++ ",\n"
      ++ prettyFields depth fs

end

/-- `JSON.stringify(v, null, 2)` — pretty form with 2-space indentation. -/
def Json.stringifyPretty (j : Json) : String :=
  prettyAt 0 j

/-- JSON insignificant whitespace. -/
def isJsonWs (c : Char) : Bool :=
  c = ' ' || c = '\n' || c = '\t' || c = '\r'

/-- Drop leading JSON whitespace. -/
def skipWs : List Char → List Char
  | [] => []
  | c :: cs => if isJsonWs c then skipWs cs else c :: cs

/-- Value of a hexadecimal digit. -/
def hexVal (c : Char) : Option Nat :=
  if '0' ≤ c ∧ c ≤ '9' then some (c.toNat - 48)
  else if 'a' ≤ c ∧ c ≤ 'f' then some (c.toNat - 87)
  else if 'A' ≤ c ∧ c ≤ 'F' then some (c.toNat - 55)
  else none

/-- Read the body of a JSON string literal (the opening quote already
consumed), returning the decoded string and the rest of the input. -/
def readStringBody : List Char → Option (String × List Char)
  | [] => none
  | '"' :: rest => some ("", rest)
  | '\\' :: 'u' :: a :: b :: c :: d :: rest => do
    let ha ← hexVal a
    let hb ← hexVal b
    let hc ← hexVal c
    let hd ← hexVal d
    let (s, r) ← readStringBody rest
    pure (String.singleton (Char.ofNat (((ha * 16 + hb) * 16 + hc) * 16 + hd)) ++ s, r)
  | '\\' :: e :: rest =>
    let dec : Option Char :=
      if e = '"' then some '"'
      else if e = '\\' then some '\\'
      else if e = '/' then some '/'
      else if e = 'n' then some '\n'
      else if e = 't' then some '\t'
      else if e = 'r' then some '\r'
      else if e = 'b' then some (Char.ofNat 8)
      else if e = 'f' then some (Char.ofNat 12)
      else none
    match dec with
    | some ch => (readStringBody rest).map (fun p => (String.singleton ch ++ p.1, p.2))
    | none => none
  | c :: rest =>
    if c.toNat < 32 then none
    else (readStringBody rest).map (fun p => (String.singleton c ++ p.1, p.2))

/-- Read a run of decimal digits into an accumulator. -/
def readDigits : List Char → Nat → Nat × List Char
  | [], acc => (acc, [])
  | c :: cs, acc =>
    if c.isDigit then readDigits cs (acc * 10 + (c.toNat - 48))
    else (acc, c :: cs)

/-- Replace the value at an existing key (keeping its position) or append the
binding — JavaScript object-assignment semantics. -/
def setField : List (String × Json) → String → Json → List (String × Json)
  | [], k, v => [(k, v)]
  | (k', v') :: rest, k, v =>
    if k' = k then (k', v) :: rest else (k', v') :: setField rest k v

mutual

/-- Recursive-descent reader for JSON values, modelling `JSON.parse` on the
integer-number fragment (a fractional or exponent part makes it fail, and
leading-zero checks are omitted; no stored value of this program is affected).
`fuel` bounds the recursion depth; `parseJson` supplies enough of it. -/
def readValue : Nat → List Char → Option (Json × List Char)
  | 0, _ => none
  | fuel + 1, cs =>
    match skipWs cs with
    | 'n' :: 'u' :: 'l' :: 'l' :: rest => some (.null, rest)
    | 't' :: 'r' :: 'u' :: 'e' :: rest => some (.bool true, rest)
    | 'f' :: 'a' :: 'l' :: 's' :: 'e' :: rest => some (.bool false, rest)
    | '"' :: rest => (readStringBody rest).map (fun p => (.str p.1, p.2))
    | '-' :: c :: rest =>
      if c.isDigit then
        let (n, r) := readDigits (c :: rest) 0
        match r with
        | '.' :: _ => none
        | 'e' :: _ => none
        | 'E' :: _ => none
        | _ => some (.num (-(n : Int)), r)
      else none
    | '[' :: rest =>
      (match skipWs rest with
       | ']' :: r2 => some (.arr [], r2)
       | r2 => readElems fuel r2 [])
    | '\x7b' :: rest =>
      (match skipWs rest with
       | '\x7d' :: r2 => some (.obj [], r2)
       | r2 => readFields fuel r2 [])
    | c :: rest =>
      if c.isDigit then
        let (n, r) := readDigits (c :: rest) 0
        match r with
        | '.' :: _ => none
        | 'e' :: _ => none
        | 'E' :: _ => none
        | _ => some (.num (n : Int), r)
      else none
    | [] => none

/-- Array elements after `[` (first element expected), accumulating in order. -/
def readElems : Nat → List Char → List Json → Option (Json × List Char)
  | 0, _, _ => none
  | fuel + 1, cs, acc => do
    let (v, r) ← readValue fuel cs
    match skipWs r with
    | ',' :: r2 => readElems fuel r2 (acc ++ [v])
    | ']' :: r2 => some (.arr (acc ++ [v]), r2)
    | _ => none

/-- Object members after the opening brace (first member expected).  A
repeated key overwrites the value at the key's first position, as in
JavaScript. -/
def readFields : Nat → List Char → List (String × Json) → Option (Json × List Char)
  | 0, _, _ => none
  | fuel + 1, cs, acc =>
    match skipWs cs with
    | '"' :: rest => do
      let (k, r) ← readStringBody rest
      match skipWs r with
      | ':' :: r2 => do
        let (v, r3) ← readValue fuel r2
        let acc2 := setField acc k v
        match skipWs r3 with
        | ',' :: r4 => readFields fuel r4 acc2
        | '\x7d' :: r4 => some (.obj acc2, r4)
        | _ => none
      | _ => none
    | _ => none

end

/-- `JSON.parse`: reads one value and requires only whitespace to remain. -/
def parseJson (s : String) : Option Json :=
  match readValue (2 * s.length + 4) s.toList with
  | some (j, rest) => if skipWs rest = [] then some j else none
  | none => none

/-- JavaScript truthiness of `todo.priority`, where `none` is a missing
field (`undefined`). -/
def isTruthy : Option Json → Bool
  | none => false
  | some .null => false
  | some (.bool b) => b
  | some (.num n) => n != 0
  | some (.str s) => s != ""
  | some (.arr _) => true
  | some (.obj _) => true

/-- One step of the load mapping: `(todo) => ({...todo, priority: todo.priority
|| "medium"})`.  Spreading a string contributes its index/character pairs,
spreading an array its index/element pairs, and spreading a number, boolean or
object behaves the usual way; reading `.priority` off `null` throws, which is
`none` here. -/
def upgradeTodo : Json → Option Json
  | .null => none
  | .bool _ => some (.obj [("priority", .str "medium")])
  | .num _ => some (.obj [("priority", .str "medium")])
  | .str s =>
    some (.obj ((s.toList.enum.map
        (fun p => (toString p.1, Json.str (String.singleton p.2))))
      ++ [("priority", .str "medium")]))
  | .arr es =>
    some (.obj ((es.enum.map (fun p => (toString p.1, p.2)))
      ++ [("priority", .str "medium")]))
  | .obj fs =>
    let pv := fs.lookup "priority"
    let newV := if isTruthy pv then pv.getD (.str "medium") else .str "medium"
    some (.obj (setField fs "priority" newV))

/-- The load half of the first `useEffect`: `localStorage.getItem("todos")` has
produced `s` (`""` stands for an absent/falsy value and is skipped by
`if (saved)`).  A successful parse to an array is mapped record by record; a
parse failure, a `.map` call on a non-array, or a throw while mapping is
caught and yields the empty collection. -/
def loadStoredTodos (s : String) : List Json :=
  if s = "" then []
  else
    match parseJson s with
    | some (.arr es) =>
      match es.mapM upgradeTodo with
      | some l => l
      | none => []
    | _ => []

/-- The save half of the second `useEffect`:
`localStorage.setItem("todos", JSON.stringify(todos))`. -/
def saveTodos (todos : List Json) : String :=
  Json.stringify (.arr todos)

/-- The component as seen by the persistence bridge: the item collection (kept
as raw records, as the untyped load path does), the `isHydrated` flag, and the
value currently stored under the `"todos"` key (`none` when absent). -/
structure Component where
  todos : List Json
  isHydrated : Bool
  store : Option String

/-- Mount-time state: empty collection, not yet hydrated, with whatever the
store already holds. -/
def Component.init (store0 : Option String) : Component :=
  { todos := [], isHydrated := false, store := store0 }

/-- Persistence-bridge events: completion of the queued microtask that loads
from storage and flips `isHydrated`, or any state change `f` applied to the
collection (the React re-render then runs the persist effect, which writes
exactly when `isHydrated` is set). -/
inductive Event where
  | loadComplete
  | mutate (f : List Json → List Json)

/-- One event step.  On `loadComplete` the stored value (when present and
non-empty) replaces the collection, `isHydrated` becomes true, and the persist
effect — whose dependencies just changed — serializes the collection in full.
On `mutate`, the persist effect writes the full serialization only when
`isHydrated` is already set. -/
def step (c : Component) : Event → Component
  | .loadComplete =>
    let t :=
      match c.store with
      | none => c.todos
      | some s => if s = "" then c.todos else loadStoredTodos s
    { todos := t, isHydrated := true, store := some (saveTodos t) }
  | .mutate f =>
    let t := f c.todos
    { todos := t, isHydrated := c.isHydrated,
      store := if c.isHydrated then some (saveTodos t) else c.store }

/-- A sequence of events applied in order. -/
def run (c : Component) (evs : List Event) : Component :=
  evs.foldl step c

/-- The priority's JSON string, as `JSON.stringify` renders the enum value. -/
def priorityKey : Priority → String
  | .high => "high"
  | .medium => "medium"
  | .low => "low"

/-- How `JSON.stringify` serializes an in-app `Todo` record: its fields in
declaration order. -/
def todoToJson (t : Todo) : Json :=
  .obj [("id", .num t.id), ("text", .str t.text),
        ("completed", .bool t.completed), ("priority", .str (priorityKey t.priority))]

/-- `"=".repeat(50)` and friends. -/
def repeatStr (s : String) (n : Nat) : String :=
  String.join (List.replicate n s)

/-- `const priorityIcon` of the txt branch. -/
def priorityIcon : Priority → String
  | .high => "🔴"
  | .medium => "🟡"
  | .low => "⚪"

/-- `text.replace(/"/g, '""')`: double every double quote. -/
def escQuotes (s : String) : String :=
  String.join (s.toList.map (fun c => if c = '"' then "\"\"" else String.singleton c))

/-- `generateExportContent(format, todosToExport)`.  The two timestamp strings
stand for `now.toISOString()` and `now.toLocaleString("zh-CN")`. -/
def generateExportContent (format : ExportFormat) (nowIso dateStr : String)
    (todosToExport : List Todo) : String :=
  match format with
  | .json =>
    Json.stringifyPretty (.obj
      [("exportTime", .str nowIso),
       ("total", .num todosToExport.length),
       ("completed", .num (todosToExport.filter (fun t => t.completed)).length),
       ("todos", .arr (todosToExport.map todoToJson))])
  | .csv =>
    let csvHeader := "ID,Text,Completed,CompletedText,Priority"
    let csvRows := todosToExport.map (fun todo =>
      "\t" ++ toString todo.id ++ ",\"" ++ escQuotes todo.text ++ "\","
        ++ (cond todo.completed "true" "false") ++ ","
        ++ (cond todo.completed "已完成" "未完成") ++ ","
        ++ priorityLabels todo.priority)
    "\uFEFF" ++ String.intercalate "\n" (csvHeader :: csvRows)
  | .txt =>
    let txtHeader := "待办事项列表 - 导出时间: " ++ dateStr ++ "\n" ++ repeatStr "=" 50 ++ "\n"
    let txtBody := String.intercalate "\n" (todosToExport.map (fun todo =>
      "[" ++ (cond todo.completed "✓" "✗") ++ "] " ++ priorityIcon todo.priority
        ++ " [" ++ priorityLabels todo.priority ++ "] " ++ todo.text))
    let txtFooter := "\n" ++ repeatStr "=" 50 ++ "\n统计: 共"
      ++ toString todosToExport.length ++ "项 | 已完成"
      ++ toString (todosToExport.filter (fun t => t.completed)).length ++ "项 | 未完成"
      ++ toString (todosToExport.filter (fun t => !t.completed)).length ++ "项\n优先级: 高"
      ++ toString (todosToExport.filter (fun t => t.priority = Priority.high)).length
      ++ "项 | 中"
      ++ toString (todosToExport.filter (fun t => t.priority = Priority.medium)).length
      ++ "项 | 低"
      ++ toString (todosToExport.filter (fun t => t.priority = Priority.low)).length
      ++ "项"
    txtHeader ++ "\n" ++ txtBody ++ "\n" ++ txtFooter

/-- The file extension used in the export filename (`.${format}`). -/
def formatExt : ExportFormat → String
  | .txt => "txt"
  | .json => "json"
  | .csv => "csv"

/-- `const mimeTypes`. -/
def mimeTypes : ExportFormat → String
  | .txt => "text/plain;charset=utf-8"
  | .json => "application/json;charset=utf-8"
  | .csv => "text/csv;charset=utf-8"

/-- Observable outcome of `exportTodos`: either the blocking `alert` (no file
is produced, the formatter is never reached) or a `downloadFile` call with its
content, filename and MIME type. -/
inductive ExportOutcome where
  | alerted (msg : String)
  | saved (content filename mimeType : String)
deriving DecidableEq

/-- `exportTodos(format, onlySelected)`: selects the subset, aborts with an
alert when it is empty, otherwise formats and saves.  `timestampStr` stands
for the `YYYYMMDD_HHMMSS` string built from `new Date()`. -/
def exportTodos (format : ExportFormat) (onlySelected : Bool)
    (todos : List Todo) (selectedIds : Finset Int)
    (nowIso dateStr timestampStr : String) : ExportOutcome :=
  let todosToExport :=
    if onlySelected then todos.filter (fun todo => decide (todo.id ∈ selectedIds))
    else todos
  if todosToExport.length = 0 then
    .alerted (cond onlySelected "没有选中的待办事项" "没有待办事项可导出")
  else
    let content := generateExportContent format nowIso dateStr todosToExport
    let suffix := cond onlySelected "_selected" ""
    let filename := "todos" ++ suffix ++ "_" ++ timestampStr ++ "." ++ formatExt format
    .saved content filename (mimeTypes format)

/-- The csv format as the specification words it (comparison definition for
the refinement check): rows whose first comma-delimited field is the item's
id, with no prefix before it. -/
def csvExportSpec (todos : List Todo) : String :=
  "\uFEFF" ++ String.intercalate "\n"
    ("ID,Text,Completed,CompletedText,Priority" ::
      todos.map (fun todo =>
        toString todo.id ++ ",\"" ++ escQuotes todo.text ++ "\","
          ++ (cond todo.completed "true" "false") ++ ","
          ++ (cond todo.completed "已完成" "未完成") ++ ","
          ++ priorityLabels todo.priority))

/-- C1 counterexample: already on a single unremarkable item, the code's csv
export differs from the claimed row shape — the code prefixes every data row
with a tab character before the id field. -/
theorem csv_export_differs_from_claimed_shape :
    generateExportContent .csv "i" "d" [⟨1, "a", false, .medium⟩]
      ≠ csvExportSpec [⟨1, "a", false, .medium⟩] := by
  decide

/-- C1 (amended): the csv export begins with the byte-order mark, then the
header row, then one row per item — each data row prefixed with a tab
character — whose remaining content is, comma-delimited: the id, the
double-quote-escaped text, the completed boolean, the localized completion
label and the localized priority label, rows joined by newline; the
`Say "hi"` item's row contains `"Say ""hi"""`. -/
theorem csv_export_shape :
    (∀ (nowIso dateStr : String) (todos : List Todo),
      generateExportContent .csv nowIso dateStr todos
        = "\uFEFF" ++ String.intercalate "\n"
            ("ID,Text,Completed,CompletedText,Priority" ::
              todos.map (fun todo =>
                "\t" ++ toString todo.id ++ ",\"" ++ escQuotes todo.text ++ "\","
                  ++ (cond todo.completed "true" "false") ++ ","
                  ++ (cond todo.completed "已完成" "未完成") ++ ","
                  ++ priorityLabels todo.priority)))
    ∧ generateExportContent .csv "i" "d" [⟨1, "Say \"hi\"", false, .medium⟩]
        = "\uFEFFID,Text,Completed,CompletedText,Priority\n\t1,\"Say \"\"hi\"\"\",false,未完成,中" :=
  ⟨fun _ _ _ => rfl, rfl⟩

/-- C4: the id of a new item is the `Date.now()` clock value; two successful
adds within the same millisecond (same clock reading 100) produce two items
with the **same** id, so the generated ids are neither unique nor strictly
increasing, contradicting the spec's requirement. -/
theorem addTodo_same_millisecond_duplicates_ids :
    ((addTodo 100 Priority.medium "b" (addTodo 100 Priority.medium "a" [])).map Todo.id)
      = [100, 100]
    ∧ ¬ ((addTodo 100 Priority.medium "b"
        (addTodo 100 Priority.medium "a" [])).map Todo.id).Nodup := by
  decide

/-- C9: the json export is the 2-space pretty-printing of an object holding
the export timestamp, the total count, the completed count and the full item
array; on the one-item `Buy milk` state it yields `total: 1`, `completed: 0`
and a `todos` array with exactly that record. -/
theorem json_export_shape :
    (∀ (nowIso dateStr : String) (ts : List Todo),
      generateExportContent .json nowIso dateStr ts
        = Json.stringifyPretty (.obj
            [("exportTime", .str nowIso),
             ("total", .num ts.length),
             ("completed", .num (ts.filter (fun t => t.completed)).length),
             ("todos", .arr (ts.map todoToJson))]))
    ∧ generateExportContent .json "2024-01-01T00:00:00.000Z" "d"
        [⟨1, "Buy milk", false, .high⟩]
      = "\x7b\n  \"exportTime\": \"2024-01-01T00:00:00.000Z\",\n  \"total\": 1,\n  \"completed\": 0,\n  \"todos\": [\n    \x7b\n      \"id\": 1,\n      \"text\": \"Buy milk\",\n      \"completed\": false,\n      \"priority\": \"high\"\n    \x7d\n  ]\n\x7d" :=
  ⟨fun _ _ _ => rfl, rfl⟩

/-- C10: the load path validates nothing — any parsed value that is not an
array gives the empty collection, a parse failure gives the empty collection,
a throw while mapping (a `null` element) gives the empty collection, and
non-object elements (numbers, strings) as well as records with a falsy or
missing `priority`, or without any item field at all, are loaded after the
priority default, never surfacing an error. -/
theorem load_accepts_anything_silently :
    (∀ (s : String) (j : Json), parseJson s = some j →
      (∀ es, j ≠ Json.arr es) → loadStoredTodos s = [])
    ∧ loadStoredTodos "not json" = []
    ∧ loadStoredTodos "[null]" = []
    ∧ loadStoredTodos "[5]" = [Json.obj [("priority", Json.str "medium")]]
    ∧ loadStoredTodos "[\"ab\"]"
        = [Json.obj [("0", Json.str "a"), ("1", Json.str "b"),
            ("priority", Json.str "medium")]]
    ∧ loadStoredTodos "[\x7b\"priority\":\"\"\x7d]"
        = [Json.obj [("priority", Json.str "medium")]]
    ∧ loadStoredTodos "[\x7b\"foo\":1\x7d]"
        = [Json.obj [("foo", Json.num 1), ("priority", Json.str "medium")]] := by
  refine ⟨?_, rfl, rfl, rfl, rfl, rfl, rfl⟩
  intro s j hp hne
  unfold loadStoredTodos
  by_cases h0 : s = ""
  · simp [h0]
  · rw [if_neg h0, hp]
    cases j with
    | arr es => exact absurd rfl (hne es)
    | null => rfl
    | bool b => rfl
    | num n => rfl
    | str s => rfl
    | obj fs => rfl

/-- C10 witness: a stored plain number — not an array — loads as the empty
collection. -/
theorem load_accepts_anything_silently_witness :
    loadStoredTodos "5" = [] :=
  load_accepts_anything_silently.1 "5" (Json.num 5) rfl (fun _ h => Json.noConfusion h)

/-- C2 counterexample: on two items with ids 1 and 2 and the proper non-empty
selection `{1}`, calling `toggleSelectAll` twice yields the empty selection,
not the prior value — the claimed involution fails on partial selections. -/
theorem toggleSelectAll_twice_loses_partial_selection :
    toggleSelectAll [⟨1, "a", false, .medium⟩, ⟨2, "b", false, .medium⟩]
      (toggleSelectAll [⟨1, "a", false, .medium⟩, ⟨2, "b", false, .medium⟩]
        ({1} : Finset Int)) = (∅ : Finset Int)
    ∧ ({1} : Finset Int) ≠ (∅ : Finset Int) := by
  decide

/-- C2 (amended): with pairwise-distinct item ids and an unchanged item set,
applying `toggleSelectAll` twice returns the selection to its prior value
exactly when that prior value is the empty selection or the full id set; from
a partial selection (non-empty, fewer elements than items) two applications
yield the empty selection instead. -/
theorem toggleSelectAll_twice (todos : List Todo) (sel : Finset Int)
    (hnd : (todos.map Todo.id).Nodup) :
    (sel = ∅ ∨ sel = idsOf todos →
      toggleSelectAll todos (toggleSelectAll todos sel) = sel)
    ∧ (0 < sel.card → sel.card < todos.length →
      toggleSelectAll todos (toggleSelectAll todos sel) = ∅) := by
  have hcard : (idsOf todos).card = todos.length := by
    rw [idsOf, List.toFinset_card_of_nodup hnd, List.length_map]
  constructor
  · rintro (rfl | rfl)
    · by_cases h0 : todos.length = 0
      · simp [toggleSelectAll, h0]
      · have h1 : ¬ ((∅ : Finset Int).card = todos.length) := by
          simpa using fun h => h0 h.symm
        have hinner : toggleSelectAll todos ∅ = idsOf todos := by
          rw [toggleSelectAll, if_neg h1]; rfl
        rw [hinner, toggleSelectAll, if_pos hcard]
    · have hinner : toggleSelectAll todos (idsOf todos) = ∅ := by
        rw [toggleSelectAll, if_pos hcard]
      rw [hinner]
      by_cases h0 : todos.length = 0
      · have : todos = [] := List.length_eq_zero.mp h0
        subst this
        simp [toggleSelectAll, idsOf]
      · have h1 : ¬ ((∅ : Finset Int).card = todos.length) := by
          simpa using fun h => h0 h.symm
        rw [toggleSelectAll, if_neg h1]; rfl
  · intro hpos hlt
    have h1 : ¬ (sel.card = todos.length) := Nat.ne_of_lt hlt
    have hinner : toggleSelectAll todos sel = idsOf todos := by
      rw [toggleSelectAll, if_neg h1]; rfl
    rw [hinner, toggleSelectAll, if_pos hcard]

/-- C2 witness: on the two-item state with distinct ids, the empty selection
and the full selection each return to themselves after two calls. -/
theorem toggleSelectAll_twice_witness :
    toggleSelectAll [⟨1, "a", false, .medium⟩, ⟨2, "b", false, .medium⟩]
      (toggleSelectAll [⟨1, "a", false, .medium⟩, ⟨2, "b", false, .medium⟩]
        (∅ : Finset Int)) = (∅ : Finset Int) :=
  (toggleSelectAll_twice [⟨1, "a", false, .medium⟩, ⟨2, "b", false, .medium⟩] ∅
    (by decide)).1 (Or.inl rfl)

/-- C3 counterexample: `toggleSelect` with an id that names no item is not a
no-op — on a one-item state with id 1 it adds the unknown id 5, breaking the
subset invariant. -/
theorem toggleSelect_breaks_subset_invariant :
    toggleSelect (∅ : Finset Int) 5 = ({5} : Finset Int)
    ∧ ¬ toggleSelect (∅ : Finset Int) 5
        ⊆ idsOf [⟨1, "a", false, Priority.medium⟩] := by
  decide

/-- C3 (amended): `toggleSelect` toggles membership unconditionally, so it
keeps the selection a subset of the current ids only when called with the id
of a present item; `deleteTodo` removes the deleted id from the selection and
preserves the invariant, as do `batchDelete`, `toggleSelectAll`, `addTodo`
and `toggleTodo`. -/
theorem selection_subset_invariant :
    (∀ (sel : Finset Int) (todos : List Todo) (id : Int),
      sel ⊆ idsOf todos → id ∈ idsOf todos → toggleSelect sel id ⊆ idsOf todos)
    ∧ (∀ (s : ListState) (id : Int),
      s.selectedIds ⊆ idsOf s.todos →
      (deleteTodo id s).selectedIds ⊆ idsOf (deleteTodo id s).todos)
    ∧ (∀ s : ListState,
      (batchDelete s).selectedIds ⊆ idsOf (batchDelete s).todos)
    ∧ (∀ (todos : List Todo) (sel : Finset Int),
      toggleSelectAll todos sel ⊆ idsOf todos)
    ∧ (∀ (now : Int) (p : Priority) (txt : String) (todos : List Todo)
        (sel : Finset Int),
      sel ⊆ idsOf todos → sel ⊆ idsOf (addTodo now p txt todos))
    ∧ (∀ (id : Int) (todos : List Todo),
      idsOf (toggleTodo id todos) = idsOf todos) := by
  refine ⟨?_, ?_, ?_, ?_, ?_, ?_⟩
  · intro sel todos id hsub hid
    rw [toggleSelect]
    split
    · exact (Finset.erase_subset _ _).trans hsub
    · exact Finset.insert_subset_iff.mpr ⟨hid, hsub⟩
  · intro s id hsub x hx
    rw [deleteTodo] at hx ⊢
    simp only [Finset.mem_erase] at hx
    obtain ⟨hne, hmem⟩ := hx
    have hx2 := hsub hmem
    simp only [idsOf, List.mem_toFinset, List.mem_map] at hx2 ⊢
    obtain ⟨t, ht, rfl⟩ := hx2
    exact ⟨t, List.mem_filter.mpr ⟨ht, by simpa [bne_iff_ne] using hne⟩, rfl⟩
  · intro s
    rw [batchDelete]
    exact Finset.empty_subset _
  · intro todos sel
    rw [toggleSelectAll]
    split
    · exact Finset.empty_subset _
    · exact Finset.Subset.refl _
  · intro now p txt todos sel hsub
    have : idsOf todos ⊆ idsOf (addTodo now p txt todos) := by
      simp only [addTodo]
      split
      · split
        · exact Finset.Subset.refl _
        · intro x hx
          simp only [idsOf, List.mem_toFinset, List.mem_map, List.mem_append] at hx ⊢
          obtain ⟨t, ht, rfl⟩ := hx
          exact ⟨t, Or.inl ht, rfl⟩
      · exact Finset.Subset.refl _
    exact hsub.trans this
  · intro id todos
    rw [idsOf, idsOf, toggleTodo, List.map_map]
    congr 1
    apply List.map_congr_left
    intro t _
    by_cases h : t.id = id <;> simp [h]

/-- C3 witness: toggling the valid id 1 on the one-item state keeps the
selection inside the current ids. -/
theorem selection_subset_invariant_witness :
    toggleSelect (∅ : Finset Int) 1 ⊆ idsOf [⟨1, "a", false, Priority.medium⟩] :=
  selection_subset_invariant.1 ∅ [⟨1, "a", false, Priority.medium⟩] 1
    (by decide) (by decide)

/-- C5 counterexample: a stored value that parses as one full item record
(priority present, so no upgrade applies) but carries one extra space; the
load–save round trip re-serializes compactly and is not byte-for-byte equal
to the original. -/
theorem loadSave_not_byte_identical :
    parseJson "[\x7b\"id\": 1,\"text\":\"a\",\"completed\":false,\"priority\":\"high\"\x7d]"
      = some (.arr [.obj [("id", .num 1), ("text", .str "a"),
          ("completed", .bool false), ("priority", .str "high")]])
    ∧ saveTodos (loadStoredTodos
        "[\x7b\"id\": 1,\"text\":\"a\",\"completed\":false,\"priority\":\"high\"\x7d]")
      ≠ "[\x7b\"id\": 1,\"text\":\"a\",\"completed\":false,\"priority\":\"high\"\x7d]" := by
  exact ⟨rfl, by decide⟩

/-- C5 (amended): when the stored value parses as a record array, the
load–save round trip writes back the compact serialization of the parsed
records with the priority upgrade applied (a record missing or with a falsy
`priority` gets `"medium"`); this equals the original byte-for-byte exactly
when the original is already that canonical serialization — not for every
parseable stored value. -/
theorem loadSave_roundtrip (s : String) (js us : List Json)
    (hp : parseJson s = some (.arr js))
    (hu : js.mapM upgradeTodo = some us) :
    saveTodos (loadStoredTodos s) = Json.stringify (.arr us)
    ∧ (s = Json.stringify (.arr us) → saveTodos (loadStoredTodos s) = s) := by
  have hne : s ≠ "" := by
    intro h
    subst h
    rw [show parseJson "" = none from rfl] at hp
    exact Option.noConfusion hp
  have hload : loadStoredTodos s = us := by
    rw [loadStoredTodos, if_neg hne, hp]
    change (match js.mapM upgradeTodo with | some l => l | none => []) = us
    rw [hu]
  refine ⟨by rw [hload]; rfl, fun hs => ?_⟩
  rw [hload, hs]
  rfl

/-- C5 witness: a canonically serialized one-record store value round-trips
byte-for-byte. -/
theorem loadSave_roundtrip_witness :
    saveTodos (loadStoredTodos
        "[\x7b\"id\":1,\"text\":\"a\",\"completed\":false,\"priority\":\"high\"\x7d]")
      = "[\x7b\"id\":1,\"text\":\"a\",\"completed\":false,\"priority\":\"high\"\x7d]" :=
  (loadSave_roundtrip
    "[\x7b\"id\":1,\"text\":\"a\",\"completed\":false,\"priority\":\"high\"\x7d]"
    [.obj [("id", .num 1), ("text", .str "a"), ("completed", .bool false),
      ("priority", .str "high")]]
    [.obj [("id", .num 1), ("text", .str "a"), ("completed", .bool false),
      ("priority", .str "high")]]
    rfl rfl).2 rfl

/-- A sequence of `addTodo` calls, each with its clock value, input text and
selected priority. -/
def runAdds (cmds : List (Int × String × Priority)) (todos : List Todo) : List Todo :=
  cmds.foldl (fun acc c => addTodo c.1 c.2.2 c.2.1 acc) todos

/-- Case-insensitive text distinctness of a collection, pairwise. -/
def NoDupText (todos : List Todo) : Prop :=
  todos.Pairwise (fun a b => jsToLower a.text ≠ jsToLower b.text)

/-- `addTodo` preserves pairwise case-insensitive distinctness of texts. -/
theorem addTodo_preserves_noDupText (now : Int) (p : Priority) (txt : String)
    (todos : List Todo) (h : NoDupText todos) :
    NoDupText (addTodo now p txt todos) := by
  simp only [addTodo]
  split
  · split
    · exact h
    · next hdup =>
      rw [NoDupText, List.pairwise_append]
      refine ⟨h, List.pairwise_singleton _ _, ?_⟩
      intro a ha b hb
      rw [List.mem_singleton] at hb
      subst hb
      intro heq
      exact hdup (List.any_eq_true.mpr ⟨a, ha, beq_iff_eq.mpr heq⟩)
  · exact h

/-- C6: `addTodo` trims the input and leaves the collection unchanged when
the trimmed text is empty or duplicates an existing item's text
case-insensitively; otherwise it appends exactly the one new item with the
trimmed text, `completed = false` and the given priority — and therefore any
sequence of adds starting from the empty collection yields no two items with
case-insensitively equal text. -/
theorem addTodo_spec :
    (∀ (now : Int) (p : Priority) (txt : String) (todos : List Todo),
      jsTrim txt = "" → addTodo now p txt todos = todos)
    ∧ (∀ (now : Int) (p : Priority) (txt : String) (todos : List Todo),
      (∃ t ∈ todos, jsToLower t.text = jsToLower (jsTrim txt)) →
      addTodo now p txt todos = todos)
    ∧ (∀ (now : Int) (p : Priority) (txt : String) (todos : List Todo),
      jsTrim txt ≠ "" →
      (∀ t ∈ todos, jsToLower t.text ≠ jsToLower (jsTrim txt)) →
      addTodo now p txt todos
        = todos ++ [⟨now, jsTrim txt, false, p⟩])
    ∧ (∀ cmds : List (Int × String × Priority), NoDupText (runAdds cmds [])) := by
  refine ⟨?_, ?_, ?_, ?_⟩
  · intro now p txt todos h
    simp [addTodo, h]
  · intro now p txt todos h
    obtain ⟨t, ht, heq⟩ := h
    have hdup : (todos.any fun todo => jsToLower todo.text == jsToLower (jsTrim txt))
        = true :=
      List.any_eq_true.mpr ⟨t, ht, beq_iff_eq.mpr heq⟩
    simp [addTodo, hdup]
  · intro now p txt todos h hng
    have hdup : (todos.any fun todo => jsToLower todo.text == jsToLower (jsTrim txt))
        = false := by
      rw [List.any_eq_false]
      intro t ht
      simpa using hng t ht
    simp [addTodo, h, hdup]
  · intro cmds
    have : ∀ todos : List Todo, NoDupText todos → NoDupText (runAdds cmds todos) := by
      induction cmds with
      | nil => exact fun todos h => h
      | cons c cmds ih =>
        intro todos h
        exact ih _ (addTodo_preserves_noDupText c.1 c.2.2 c.2.1 todos h)
    exact this [] List.Pairwise.nil

/-- C6 witness: a whitespace-only input leaves the collection unchanged. -/
theorem addTodo_spec_witness :
    addTodo 5 Priority.high "   " [] = [] :=
  addTodo_spec.1 5 Priority.high "   " [] (by decide)

/-- C7: when the subset to export is empty — exporting all of an empty
collection, or exporting selected items with nothing selected, in particular
right after `batchDelete` — `exportTodos` aborts with the blocking alert, for
every format and before any file is produced. -/
theorem exportTodos_empty_blocks :
    (∀ (fmt : ExportFormat) (todos : List Todo) (sel : Finset Int)
        (iso ds ts : String),
      todos.filter (fun todo => decide (todo.id ∈ sel)) = [] →
      exportTodos fmt true todos sel iso ds ts = .alerted "没有选中的待办事项")
    ∧ (∀ (fmt : ExportFormat) (sel : Finset Int) (iso ds ts : String),
      exportTodos fmt false [] sel iso ds ts = .alerted "没有待办事项可导出")
    ∧ (∀ (fmt : ExportFormat) (s : ListState) (iso ds ts : String),
      exportTodos fmt true (batchDelete s).todos (batchDelete s).selectedIds iso ds ts
        = .alerted "没有选中的待办事项")
    ∧ (∀ (fmt : ExportFormat) (onlySel : Bool) (todos : List Todo)
        (sel : Finset Int) (iso ds ts c f m : String),
      (if onlySel then todos.filter (fun todo => decide (todo.id ∈ sel)) else todos)
          = [] →
      exportTodos fmt onlySel todos sel iso ds ts ≠ .saved c f m) := by
  have key : ∀ (fmt : ExportFormat) (onlySel : Bool) (todos : List Todo)
      (sel : Finset Int) (iso ds ts : String),
      (if onlySel then todos.filter (fun todo => decide (todo.id ∈ sel)) else todos)
          = [] →
      exportTodos fmt onlySel todos sel iso ds ts
        = .alerted (cond onlySel "没有选中的待办事项" "没有待办事项可导出") := by
    intro fmt onlySel todos sel iso ds ts h
    simp only [exportTodos]
    rw [show (if onlySel = true then
          todos.filter (fun todo => decide (todo.id ∈ sel)) else todos) = [] from h]
    rfl
  refine ⟨?_, ?_, ?_, ?_⟩
  · intro fmt todos sel iso ds ts h
    exact key fmt true todos sel iso ds ts (by simpa using h)
  · intro fmt sel iso ds ts
    exact key fmt false [] sel iso ds ts (by simp)
  · intro fmt s iso ds ts
    refine key fmt true _ _ iso ds ts ?_
    simp [batchDelete]
  · intro fmt onlySel todos sel iso ds ts c f m h
    rw [key fmt onlySel todos sel iso ds ts (by simpa using h)]
    exact fun hcon => ExportOutcome.noConfusion hcon

/-- C7 witness: exporting an empty collection aborts with the alert. -/
theorem exportTodos_empty_blocks_witness :
    exportTodos .csv false [] (∅ : Finset Int) "i" "d" "t"
      = .alerted "没有待办事项可导出" :=
  exportTodos_empty_blocks.2.1 .csv ∅ "i" "d" "t"

/-- Without a `loadComplete` event the store and the hydration flag are
untouched: every `mutate` step before hydration suppresses its write. -/
theorem run_no_load (evs : List Event) :
    ∀ c : Component, c.isHydrated = false →
    (∀ e ∈ evs, e ≠ Event.loadComplete) →
    (run c evs).store = c.store ∧ (run c evs).isHydrated = false := by
  induction evs with
  | nil => exact fun c hc _ => ⟨rfl, hc⟩
  | cons e evs ih =>
    intro c hc hno
    cases e with
    | loadComplete => exact absurd rfl (hno _ (List.mem_cons_self _ _))
    | mutate f =>
      have hstep : (step c (.mutate f)).store = c.store
          ∧ (step c (.mutate f)).isHydrated = false := by
        simp [step, hc]
      have := ih (step c (.mutate f)) hstep.2
        (fun e he => hno e (List.mem_cons_of_mem _ he))
      exact ⟨this.1.trans hstep.1, this.2⟩

/-- C8: starting from mount, no write reaches the store before the load
completes (any event sequence without `loadComplete` leaves the stored value
as it was); once hydrated, every state change writes the full serialization
of the new collection, and the load-completion step itself sets the flag and
writes the full serialization of what it loaded. -/
theorem persistence_write_gating :
    (∀ (s0 : Option String) (evs : List Event),
      (∀ e ∈ evs, e ≠ Event.loadComplete) →
      (run (Component.init s0) evs).store = s0)
    ∧ (∀ (c : Component) (f : List Json → List Json), c.isHydrated = true →
      (step c (.mutate f)).store = some (saveTodos (f c.todos)))
    ∧ (∀ c : Component, (step c .loadComplete).isHydrated = true
      ∧ (step c .loadComplete).store
          = some (saveTodos ((step c .loadComplete).todos))) := by
  refine ⟨?_, ?_, ?_⟩
  · intro s0 evs hno
    exact (run_no_load evs (Component.init s0) rfl hno).1
  · intro c f hc
    rw [step, hc]
    rfl
  · intro c
    exact ⟨rfl, rfl⟩

/-- C8 witness: a mutation arriving before hydration does not clobber the
previously stored value. -/
theorem persistence_write_gating_witness :
    (run (Component.init (some "x")) [Event.mutate (fun l => Json.num 1 :: l)]).store
      = some "x" :=
  persistence_write_gating.1 (some "x") [Event.mutate (fun l => Json.num 1 :: l)]
    (by
      intro e he
      rw [List.mem_singleton] at he
      subst he
      exact fun hcon => Event.noConfusion hcon)

end Claw
